import Mathlib

/-!
A verification development of curl's alt-svc cache (`lib/altsvc.c`): a
shallow embedding of the header parser, the lookup/eviction scan, the
origin flush, entry creation and the cache-file line tokenization,
together with theorems about their behaviour.

Modelling conventions:
* C strings are `List Char` (a C string never contains NUL, so the end of
  the list models the terminator).
* `time_t` is a 64-bit signed integer modelled as `Int` with an explicit
  `TIME_T_MAX`; `unsigned long` is 64 bits (LP64), with casts made
  explicit.
* The list of cache entries models the intrusive `Curl_llist` in
  insertion order; in-place removal/append become pure list results.
* The debug clock override is replaced by an explicit `now` parameter,
  and the external calendar parser by a `getdate` function parameter.
-/

namespace Altsvc

/-- `ISBLANK` from curl: space or horizontal tab. -/
def ISBLANK (c : Char) : Bool := c == ' ' || c == '\t'

/-- `ISNEWLINE` from curl: LF or CR. -/
def ISNEWLINE (c : Char) : Bool := c == '\n' || c == '\r'

/-- `ISDIGIT`: ASCII decimal digit. -/
def ISDIGIT (c : Char) : Bool := '0' ≤ c && c ≤ '9'

/-- `ISALNUM`: ASCII letter or digit. -/
def ISALNUM (c : Char) : Bool := ISDIGIT c || ('a' ≤ c && c ≤ 'z') || ('A' ≤ c && c ≤ 'Z')

/-- `ISSPACE`: the C whitespace set honoured by `strtoul`. -/
def ISSPACE (c : Char) : Bool :=
  c == ' ' || c == '\t' || c == '\n' || c == '\x0B' || c == '\x0C' || c == '\r'

/-- Convert a string literal to the `List Char` representation used here. -/
def cs (s : String) : List Char := s.toList

/-- ASCII lower-casing, as curl's raw case-insensitive comparison does. -/
def rawToLower (c : Char) : Char :=
  if 'A' ≤ c && c ≤ 'Z' then Char.ofNat (c.toNat + 32) else c

/-- Modelled from the spec: the external case-insensitive ASCII string
comparison `strcasecompare` (strcase.c is outside the given sources),
comparing the two strings in full. -/
def strcasecompare (a b : List Char) : Bool := a.map rawToLower == b.map rawToLower

/-- Modelled from the spec: the external case-insensitive comparison of the
first `n` bytes, `strncasecompare`. -/
def strncasecompare (a b : List Char) (n : Nat) : Bool :=
  (a.take n).map rawToLower == (b.take n).map rawToLower

/-- `ULONG_MAX` for the LP64 platforms modelled here. -/
def ULONG_MAX : Nat := 2 ^ 64 - 1

/-- `TIME_T_MAX` for a 64-bit signed `time_t`. -/
def TIME_T_MAX : Int := 2 ^ 63 - 1

/-- Numeric value of a decimal digit string. -/
def digitsToNat (ds : List Char) : Nat := ds.foldl (fun n c => n * 10 + (c.toNat - 48)) 0

/-- Modelled from the spec: C `strtoul` in base 10 over a 64-bit
`unsigned long` — skip C whitespace and an optional sign, then consume
decimal digits. `none` models "no conversion performed" (where C leaves
`end_ptr == nptr`); otherwise the value (negated modulo 2^64 after a minus
sign, saturated to `ULONG_MAX` on overflow) and the end pointer. -/
def strtoul (p : List Char) : Option (Nat × List Char) :=
  let p1 := p.dropWhile ISSPACE
  let signed : Bool × List Char :=
    match p1 with
    | '-' :: r => (true, r)
    | '+' :: r => (false, r)
    | _ => (false, p1)
  let ds := signed.2.takeWhile ISDIGIT
  if ds.length = 0 then none
  else
    let n := digitsToNat ds
    let v :=
      if ULONG_MAX < n then ULONG_MAX
      else if signed.1 then (2 ^ 64 - n) % 2 ^ 64 else n
    some (v, signed.2.drop ds.length)

/-- The C cast `(time_t)num` from `unsigned long` to the signed 64-bit
`time_t`, with the usual two's complement conversion. -/
def castTimeT (n : Nat) : Int :=
  let m : Nat := n % 2 ^ 64
  if m < 2 ^ 63 then (m : Int) else (m : Int) - 2 ^ 64

/-- The CURLcode results this component produces. -/
inductive CURLcode where
  | CURLE_OK
  | CURLE_BAD_FUNCTION_ARGUMENT
  | CURLE_OUT_OF_MEMORY
  | CURLE_WRITE_ERROR
deriving DecidableEq

/-- Modelled from the spec: the closed ALPN protocol enumeration
(`enum alpnid`, defined outside the given sources); the invalid id is
distinct from every real protocol. -/
inductive alpnid where
  | ALPN_none
  | ALPN_h1
  | ALPN_h2
  | ALPN_h3
deriving DecidableEq

/-- Modelled from the spec: the numeric bit value each ALPN id carries
(the invalid id carries no bit, so it can never match an acceptance
bitmask). -/
def alpnbit : alpnid → Nat
  | .ALPN_none => 0
  | .ALPN_h1 => 8
  | .ALPN_h2 => 16
  | .ALPN_h3 => 32

/-- Modelled from the spec: `Curl_alpn2alpnid` (defined outside the given
sources) takes a pointer and an explicit byte length and matches that
byte string exactly (case-sensitively) against the recognized tokens; no
match gives the invalid id. Every recognized token is 2 bytes long, so a
match needs `len = 2` and the first two bytes equal to the token (when
the C string is shorter than `len`, the compared bytes include the NUL
terminator and can never equal a token). -/
def Curl_alpn2alpnid (s : List Char) (len : Nat) : alpnid :=
  if len = (cs "h1").length ∧ s.take len = cs "h1" then .ALPN_h1
  else if len = (cs "h2").length ∧ s.take len = cs "h2" then .ALPN_h2
  else if len = (cs "h3").length ∧ s.take len = cs "h3" then .ALPN_h3
  else .ALPN_none

/-- An endpoint triple as stored in `struct altsvc` (host already
normalized by `altsvc_createid`). -/
structure Endpoint where
  alpnid : alpnid
  host : List Char
  port : Nat
deriving DecidableEq

/-- `struct altsvc`: one cache entry. -/
structure altsvc where
  src : Endpoint
  dst : Endpoint
  expires : Int
  persist : Bool
  prio : Nat
deriving DecidableEq

/-- `hostcompare`: true if `host` matches `check`; a single trailing dot on
`host` (the first argument) is ignored. -/
def hostcompare (host check : List Char) : Bool :=
  let hlen := host.length
  let clen := check.length
  let hlen2 := if hlen ≠ 0 ∧ host.getLast? = some '.' then hlen - 1 else hlen
  if hlen2 ≠ clen then false else strncasecompare host check hlen2

/-- The per-entry source-origin condition tested by `altsvc_flush`. -/
def flushMatch (srcalpnid : alpnid) (srchost : List Char) (srcport : Nat) (a : altsvc) : Bool :=
  (srcalpnid == a.src.alpnid) && (srcport == a.src.port) && hostcompare srchost a.src.host

/-- `altsvc_flush`: remove every entry whose source matches the given
origin triple. -/
def altsvc_flush (srcalpnid : alpnid) (srchost : List Char) (srcport : Nat) :
    List altsvc → List altsvc
  | [] => []
  | a :: rest =>
    if flushMatch srcalpnid srchost srcport a then altsvc_flush srcalpnid srchost srcport rest
    else a :: altsvc_flush srcalpnid srchost srcport rest

/-- The per-entry match condition of `Curl_altsvc_lookup`: source triple
equality (ALPN id, `hostcompare`, port) plus the destination protocol's
bit being set in the acceptance bitmask. -/
def lookupMatch (srcalpnid : alpnid) (srchost : List Char) (srcport : Nat) (versions : Nat)
    (a : altsvc) : Bool :=
  (a.src.alpnid == srcalpnid) && hostcompare srchost a.src.host && (a.src.port == srcport) &&
    !(versions &&& alpnbit a.dst.alpnid == 0)

/-- `Curl_altsvc_lookup`: first-match scan with lazy eviction. Returns the
found entry (if any) together with the entry list as left behind by the
evictions performed along the way. -/
def Curl_altsvc_lookup (now : Int) (srcalpnid : alpnid) (srchost : List Char) (srcport : Nat)
    (versions : Nat) : List altsvc → Option altsvc × List altsvc
  | [] => (none, [])
  | a :: rest =>
    if a.expires < now then Curl_altsvc_lookup now srcalpnid srchost srcport versions rest
    else if lookupMatch srcalpnid srchost srcport versions a then (some a, a :: rest)
    else
      let r := Curl_altsvc_lookup now srcalpnid srchost srcport versions rest
      (r.1, a :: r.2)

/-- `altsvc_createid`: build an entry, stripping the IPv6 brackets from
either host and exactly one trailing dot from the source host; `none`
models the `error` exits taken for empty hosts. `expires` and `persist`
are filled in by the callers. The `% 65536` mirrors the
`(unsigned short)` casts on the ports. -/
def altsvc_createid (srchost dsthost : List Char) (srcalpnid dstalpnid : alpnid)
    (srcport dstport : Nat) : Option altsvc :=
  let hlen := srchost.length
  let dlen := dsthost.length
  if hlen = 0 ∨ dlen = 0 then none
  else
    let srcStrip : Option (List Char) :=
      if 2 < hlen ∧ srchost.head? = some '[' then some ((srchost.drop 1).take (hlen - 2))
      else if srchost.getLast? = some '.' then
        if hlen - 1 = 0 then none else some (srchost.take (hlen - 1))
      else some srchost
    match srcStrip with
    | none => none
    | some sh =>
      let dh :=
        if 2 < dlen ∧ dsthost.head? = some '[' then (dsthost.drop 1).take (dlen - 2)
        else dsthost
      some ⟨⟨srcalpnid, sh, srcport % 65536⟩, ⟨dstalpnid, dh, dstport % 65536⟩, 0, false, 0⟩

/-- `altsvc_create`: resolve both ALPN tokens; either one resolving to the
invalid id fails the creation. -/
def altsvc_create (srchost dsthost srcalpn dstalpn : List Char) (srcport dstport : Nat) :
    Option altsvc :=
  let dstalpnid := Curl_alpn2alpnid dstalpn dstalpn.length
  let srcalpnid := Curl_alpn2alpnid srcalpn srcalpn.length
  if srcalpnid = .ALPN_none ∨ dstalpnid = .ALPN_none then none
  else altsvc_createid srchost dsthost srcalpnid dstalpnid srcport dstport

/-- Modelled from the spec: `Curl_str_word` (strparse.c is outside the
given sources) — a non-empty run of bytes up to the next space, of at most
`max` bytes. -/
def Curl_str_word (line : List Char) (max : Nat) : Option (List Char × List Char) :=
  let w := line.takeWhile (fun c => c ≠ ' ')
  if w.length = 0 ∨ max < w.length then none else some (w, line.drop w.length)

/-- Modelled from the spec: `Curl_str_singlespace` — exactly one space. -/
def Curl_str_singlespace (line : List Char) : Option (List Char) :=
  match line with
  | ' ' :: rest => some rest
  | _ => none

/-- Modelled from the spec: `Curl_str_number` — a non-empty decimal digit
run whose value is at most `max`. -/
def Curl_str_number (line : List Char) (max : Nat) : Option (Nat × List Char) :=
  let ds := line.takeWhile ISDIGIT
  if ds.length = 0 then none
  else
    let n := digitsToNat ds
    if max < n then none else some (n, line.drop ds.length)

/-- Modelled from the spec: `Curl_str_quotedword` — a non-empty
double-quoted word of at most `max` bytes with its closing quote. -/
def Curl_str_quotedword (line : List Char) (max : Nat) : Option (List Char × List Char) :=
  match line with
  | '"' :: rest =>
    let w := rest.takeWhile (fun c => c ≠ '"')
    match rest.drop w.length with
    | '"' :: r2 => if w.length = 0 ∨ max < w.length then none else some (w, r2)
    | _ => none
  | _ => none

/-- Modelled from the spec: `Curl_str_newline` — the line's terminating
newline byte. -/
def Curl_str_newline (line : List Char) : Option (List Char) :=
  match line with
  | c :: rest => if ISNEWLINE c then some rest else none
  | [] => none

/-- The field tuple read from one cache-file line by `altsvc_add` (the
priority field is checked but not kept: the code forces `prio = 0`). -/
structure LineFields where
  srcalpn : List Char
  srchost : List Char
  srcport : Nat
  dstalpn : List Char
  dsthost : List Char
  dstport : Nat
  date : List Char
  persist : Nat
deriving DecidableEq

/-- The strict tokenization in `altsvc_add` (altsvc.c lines 167-184): nine
fields in fixed order with the fixed bounds (ALPN tokens at most 10 bytes,
hosts at most 2048, ports at most 65535, a quoted date of at most 256
bytes, persist at most 1, priority at most 0), terminated by a newline. -/
def altsvcLineFields (line : List Char) : Option LineFields :=
  match Curl_str_word line 10 with
  | none => none
  | some (srcalpn, l1) =>
  match Curl_str_singlespace l1 with
  | none => none
  | some l2 =>
  match Curl_str_word l2 2048 with
  | none => none
  | some (srchost, l3) =>
  match Curl_str_singlespace l3 with
  | none => none
  | some l4 =>
  match Curl_str_number l4 65535 with
  | none => none
  | some (srcport, l5) =>
  match Curl_str_singlespace l5 with
  | none => none
  | some l6 =>
  match Curl_str_word l6 10 with
  | none => none
  | some (dstalpn, l7) =>
  match Curl_str_singlespace l7 with
  | none => none
  | some l8 =>
  match Curl_str_word l8 2048 with
  | none => none
  | some (dsthost, l9) =>
  match Curl_str_singlespace l9 with
  | none => none
  | some l10 =>
  match Curl_str_number l10 65535 with
  | none => none
  | some (dstport, l11) =>
  match Curl_str_singlespace l11 with
  | none => none
  | some l12 =>
  match Curl_str_quotedword l12 256 with
  | none => none
  | some (date, l13) =>
  match Curl_str_singlespace l13 with
  | none => none
  | some l14 =>
  match Curl_str_number l14 1 with
  | none => none
  | some (persist, l15) =>
  match Curl_str_singlespace l15 with
  | none => none
  | some l16 =>
  match Curl_str_number l16 0 with
  | none => none
  | some (_prio, l17) =>
  match Curl_str_newline l17 with
  | none => none
  | some _ => some ⟨srcalpn, srchost, srcport, dstalpn, dsthost, dstport, date, persist⟩

/-- `altsvc_add`: tokenize one line; on success create and append the
entry; any tokenization or creation failure silently discards the line.
`getdate` is the external calendar parser `Curl_getdate_capped`, supplied
as a parameter. -/
def altsvc_add (getdate : List Char → Int) (asi : List altsvc) (line : List Char) :
    CURLcode × List altsvc :=
  match altsvcLineFields line with
  | none => (.CURLE_OK, asi)
  | some f =>
    match altsvc_create f.srchost f.dsthost f.srcalpn f.dstalpn f.srcport f.dstport with
    | none => (.CURLE_OK, asi)
    | some a =>
      (.CURLE_OK,
       asi ++ [{ a with expires := getdate f.date, persist := f.persist != 0, prio := 0 }])

/-- The line loop of `altsvc_load` over the already-read lines: skip
comment lines (optional leading blanks then `#`), feed every other line to
`altsvc_add`. -/
def altsvcLoadLines (getdate : List Char → Int) (asi : List altsvc) (lines : List (List Char)) :
    List altsvc :=
  lines.foldl
    (fun acc line =>
      let lineptr := line.dropWhile ISBLANK
      if lineptr.head? = some '#' then acc else (altsvc_add getdate acc lineptr).2)
    asi

/-- `getalnum`: skip blanks, then take the run of bytes up to a blank, `;`
or `=`; the run must be non-empty and shorter than the buffer. The
remainder is advanced past the run even on failure, as the C updates
`*ptr` unconditionally. -/
def getalnum (p : List Char) (buflen : Nat) : Option (List Char) × List Char :=
  let p1 := p.dropWhile ISBLANK
  let tok := p1.takeWhile (fun c => !ISBLANK c && c ≠ ';' && c ≠ '=')
  let rest := p1.drop tok.length
  if tok.length = 0 ∨ buflen ≤ tok.length then (none, rest) else (some tok, rest)

/-- Character set curl accepts inside a bracketed IPv6 destination:
hex digits, `:` and `.`. -/
def isIpv6Char (c : Char) : Bool :=
  ISDIGIT c || ('a' ≤ c && c ≤ 'f') || ('A' ≤ c && c ≤ 'F') || c == ':' || c == '.'

/-- Character set of an unbracketed destination hostname: alphanumerics,
`.` and `-`. -/
def isHostChar (c : Char) : Bool := ISALNUM c || c == '.' || c == '-'

/-- The destination-host section of one alternative (altsvc.c lines
538-567): `none` models the `break` on invalid bracketed-host syntax;
otherwise `(valid, dsthost, rest)`, where an empty or over-long host
merely marks the alternative invalid (`dsthost` stays empty, as in C). -/
def hostPart (p : List Char) (srchost : List Char) : Option (Bool × List Char × List Char) :=
  if p.head? = some ':' then some (true, srchost, p)
  else
    let scanned : Option (List Char × List Char) :=
      if p.head? = some '[' then
        let pin := p.drop 1
        let span := (pin.takeWhile isIpv6Char).length
        if (pin.drop span).head? = some ']' then some (p.take (span + 2), pin.drop (span + 1))
        else none
      else
        let run := p.takeWhile isHostChar
        some (run, p.drop run.length)
    match scanned with
    | none => none
    | some (cand, rest) =>
      if cand.length = 0 ∨ 2048 ≤ cand.length then some (false, [], rest)
      else some (true, cand, rest)

/-- The destination-port section of one alternative (altsvc.c lines
569-585): returns `(stillValid, dstport, rest)`. A missing, zero,
over-range or badly terminated port marks the alternative invalid and
leaves the carried `dstport` unchanged. -/
def portPart (p : List Char) (dstport : Nat) : Bool × Nat × List Char :=
  if p.head? = some ':' then
    let pd := p.drop 1
    match (if pd.head?.elim false ISDIGIT then strtoul pd else none) with
    | some (port, endp) =>
      if port = 0 ∨ 65535 < port ∨ endp.head? ≠ some '"' then (false, dstport, pd)
      else (true, port, endp)
    | none => (false, dstport, pd)
  else (true, dstport, p)

/-- Outcome of the `ma`/`persist` parameter loop: `.ret` models the
`return CURLE_OK` exits that abandon the rest of the header value. -/
inductive ParamResult where
  | ret
  | done (p : List Char) (maxage : Int) (persist : Bool)
deriving DecidableEq

/-- The parameter loop of one alternative (altsvc.c lines 590-635). The
`quoted` flag is loop-carried, as in C, where it is never reset between
parameters of the same alternative. Fuel bounds the recursion; each
iteration consumes the `;` byte, so `p.length + 1` fuel is exact. -/
def paramLoop (fuel : Nat) (p : List Char) (quoted : Bool) (maxage : Int) (persist : Bool) :
    ParamResult :=
  match fuel with
  | 0 => .done p maxage persist
  | fuel + 1 =>
    let p1 := p.dropWhile ISBLANK
    if p1.head? ≠ some ';' then .done p1 maxage persist
    else
      let p2 := p1.drop 1
      if p2.head? = none ∨ p2.head?.elim false ISNEWLINE then .done p2 maxage persist
      else
        let ga := getalnum p2 32
        let option := ga.1.getD []
        let p4 := ga.2.dropWhile ISBLANK
        if p4.head? ≠ some '=' then .ret
        else
          let p5 := (p4.drop 1).dropWhile ISBLANK
          if p5 = [] then .ret
          else
            let qp : Bool × List Char :=
              if p5.head? = some '"' then (true, p5.drop 1) else (quoted, p5)
            let scan : Option (List Char) :=
              if qp.1 then
                let w := qp.2.takeWhile (fun c => c ≠ '"')
                let r := qp.2.drop w.length
                if r = [] then none else some (r.drop 1)
              else
                some (qp.2.drop ((qp.2.takeWhile
                  (fun c => !ISBLANK c && c ≠ ';' && c ≠ ',')).length))
            match scan with
            | none => .ret
            | some p7 =>
              let upd : Int × Bool :=
                match strtoul qp.2 with
                | some (num, _) =>
                  if num < ULONG_MAX then
                    if strcasecompare (cs "ma") option then (castTimeT num, persist)
                    else if strcasecompare (cs "persist") option && num == 1 then (maxage, true)
                    else (maxage, persist)
                  else (maxage, persist)
                | none => (maxage, persist)
              paramLoop fuel p7 qp.1 upd.1 upd.2

/-- The data needed for the store step of one valid alternative. -/
structure StoreData where
  dsthost : List Char
  dstalpnid : alpnid
  maxage : Int
  persist : Bool
deriving DecidableEq

/-- Result of scanning one alternative: whether a store is attempted, the
possibly updated carried destination port, and where to continue (`none`
models every `break`/`return` that ends the scan). -/
structure StepOut where
  store : Option StoreData
  dstport : Nat
  cont : Option (List Char × List Char)
deriving DecidableEq

/-- The do/while continuation condition (altsvc.c line 675): stop at end
of input, `;`, LF or CR. -/
def loopCond (p : List Char) : Bool :=
  match p.head? with
  | none => false
  | some c => !(c == ';' || c == '\n' || c == '\r')

/-- One iteration of the alternative loop of `Curl_altsvc_parse` (altsvc.c
lines 521-675), excluding the store into the cache: protocol resolution,
`="`, host, port, closing quote, parameters, comma and loop condition.
`alpnlen` is the length of the header value's FIRST protocol token: the C
computes it once (line 502) and never updates it when the comma branch
reads a new token into `alpnbuf` (line 668), so line 524 resolves every
later alternative against this stale length. -/
def altsvcStep (p0 alpnbuf : List Char) (alpnlen dstport0 : Nat) (srchost : List Char) :
    StepOut :=
  if p0.head? = some '=' then
    let dstalpnid := Curl_alpn2alpnid alpnbuf alpnlen
    let p1 := p0.drop 1
    if p1.head? = some '"' then
      let p2 := p1.drop 1
      match hostPart p2 srchost with
      | none => ⟨none, dstport0, none⟩
      | some (valid0, dsthost, p3) =>
        let pp := portPart p3 dstport0
        let valid := valid0 && pp.1
        if pp.2.2.head? = some '"' then
          let p5 := pp.2.2.drop 1
          match paramLoop (p5.length + 1) p5 false (24 * 3600) false with
          | .ret => ⟨none, pp.2.1, none⟩
          | .done p6 maxage persist =>
            let store :=
              if dstalpnid ≠ .ALPN_none ∧ valid = true then
                some (⟨dsthost, dstalpnid, maxage, persist⟩ : StoreData)
              else none
            let contData : Option (List Char × List Char) :=
              if p6.head? = some ',' then
                let ga := getalnum (p6.drop 1) 10
                match ga.1 with
                | none => none
                | some tok => if loopCond ga.2 then some (ga.2, tok) else none
              else if loopCond p6 then some (p6, alpnbuf) else none
            ⟨store, pp.2.1, contData⟩
        else ⟨none, pp.2.1, none⟩
    else ⟨none, dstport0, none⟩
  else ⟨none, dstport0, none⟩

/-- The saturating expiry computation at the store step (altsvc.c lines
650-653). -/
def storeExpiry (now maxage : Int) : Int :=
  if TIME_T_MAX - now < maxage then TIME_T_MAX else maxage + now

/-- Observable outcome of `Curl_altsvc_parse`: the returned code, the
entry list after all mutations, and — as instrumentation for the flush
claims — how many times `altsvc_flush` ran and the final value of the
`entries` counter (the number of valid alternatives seen). -/
structure ParseResult where
  code : CURLcode
  list : List altsvc
  flushes : Nat
  entries : Nat
deriving DecidableEq

/-- The alternative loop of `Curl_altsvc_parse` with its store step
(altsvc.c lines 521-675): flush the origin before the first valid
alternative, create and append each storable entry, then continue per
`altsvcStep`. Fuel bounds the recursion; each iteration consumes the `=`
byte, so `p.length + 1` fuel is exact. -/
def altsvcLoop (fuel : Nat) (p alpnbuf : List Char) (alpnlen dstport : Nat)
    (srcalpnid : alpnid) (srchost : List Char) (srcport : Nat) (now : Int)
    (entries flushes : Nat) (list : List altsvc) : ParseResult :=
  match fuel with
  | 0 => ⟨.CURLE_OK, list, flushes, entries⟩
  | fuel + 1 =>
    let st := altsvcStep p alpnbuf alpnlen dstport srchost
    let acc : Nat × Nat × List altsvc :=
      match st.store with
      | none => (entries, flushes, list)
      | some sd =>
        let fl : List altsvc × Nat :=
          if entries = 0 then (altsvc_flush srcalpnid srchost srcport list, flushes + 1)
          else (list, flushes)
        let l2 :=
          match altsvc_createid srchost sd.dsthost srcalpnid sd.dstalpnid srcport st.dstport with
          | none => fl.1
          | some a =>
            fl.1 ++ [{ a with expires := storeExpiry now sd.maxage, persist := sd.persist }]
        (entries + 1, fl.2, l2)
    match st.cont with
    | none => ⟨.CURLE_OK, acc.2.2, acc.2.1, acc.1⟩
    | some pa =>
      altsvcLoop fuel pa.1 pa.2 alpnlen st.dstport srcalpnid srchost srcport now
        acc.1 acc.2.1 acc.2.2

/-- `Curl_altsvc_parse` (altsvc.c lines 491-678): read the leading
protocol token, compute `alpnlen` from it once (line 502 — this length is
never updated and is reused for every later alternative), handle the
`clear` keyword, then run the alternative loop. `now` stands for
`time(NULL)`: the C calls it once per stored alternative, but with the
injected constant clock modelled here every call returns the same value,
so a single parameter is faithful. -/
def Curl_altsvc_parse (value : List Char) (srcalpnid : alpnid) (srchost : List Char)
    (srcport : Nat) (now : Int) (list : List altsvc) : ParseResult :=
  let ga := getalnum value 10
  match ga.1 with
  | none => ⟨.CURLE_OK, list, 0, 0⟩
  | some alpnbuf =>
    if strcasecompare alpnbuf (cs "clear") then
      ⟨.CURLE_OK, altsvc_flush srcalpnid srchost srcport list, 1, 0⟩
    else
      altsvcLoop (ga.2.length + 1) ga.2 alpnbuf alpnbuf.length srcport srcalpnid srchost
        srcport now 0 0 list

/-- Whether a header value is the magic `clear` keyword (case-insensitive),
i.e. takes the flush-only path of `Curl_altsvc_parse`. -/
def isClearHeader (value : List Char) : Bool :=
  match (getalnum value 10).1 with
  | none => false
  | some tok => strcasecompare tok (cs "clear")

/-- An entry is live at `now` when its expiry has not strictly passed. -/
def liveB (now : Int) (a : altsvc) : Bool := !decide (a.expires < now)

/-- Live and matching: the condition under which `Curl_altsvc_lookup`
returns an entry (spec §4.3 wording). -/
def liveMatch (now : Int) (srcalpnid : alpnid) (srchost : List Char) (srcport : Nat)
    (versions : Nat) (a : altsvc) : Bool :=
  liveB now a && lookupMatch srcalpnid srchost srcport versions a

/-- A sample live cache entry used by concrete witnesses: origin
(h1, example.com, 443), destination (h2, old.example, 443). -/
def sampleEntry : altsvc :=
  ⟨⟨.ALPN_h1, cs "example.com", 443⟩, ⟨.ALPN_h2, cs "old.example", 443⟩, 99999, false, 0⟩

/-- A variant of `sampleEntry` whose stored source host carries a trailing
dot. -/
def dotEntry : altsvc :=
  ⟨⟨.ALPN_h1, cs "example.com.", 443⟩, ⟨.ALPN_h2, cs "alt.example", 443⟩, 99999, false, 0⟩

/-- A `sampleEntry` variant parameterized by its expiry, for boundary
tests. -/
def entryAt (expires : Int) : altsvc :=
  ⟨⟨.ALPN_h1, cs "example.com", 443⟩, ⟨.ALPN_h2, cs "alt.example", 443⟩, expires, false, 0⟩

/-- An entry whose stored source host carries a trailing dot,
parameterized by its expiry. -/
def dotSrcAt (expires : Int) : altsvc :=
  ⟨⟨.ALPN_h1, cs "example.com.", 443⟩, ⟨.ALPN_h2, cs "alt.example", 443⟩, expires, false, 0⟩

/-- The entry `altsvc_createid` builds from source `host.` and bracketed
destination `[::1]` (dot and brackets stripped), used by a witness. -/
def strippedEntry : altsvc :=
  ⟨⟨.ALPN_h1, cs "host", 80⟩, ⟨.ALPN_h2, cs "::1", 443⟩, 0, false, 0⟩


/-! ## Helper lemmas -/

theorem altsvc_flush_nil (sa : alpnid) (sh : List Char) (sp : Nat) :
    altsvc_flush sa sh sp [] = [] := rfl

theorem altsvcLoop_code (sa : alpnid) (sh : List Char) (sp : Nat) (now : Int) (alen : Nat) :
    ∀ (fuel : Nat) (p a : List Char) (dp e fl : Nat) (l : List altsvc),
    (altsvcLoop fuel p a alen dp sa sh sp now e fl l).code = .CURLE_OK := by
  intro fuel
  induction fuel with
  | zero => intro p a dp e fl l; rfl
  | succ n ih =>
    intro p a dp e fl l
    simp only [altsvcLoop]
    rcases hc : (altsvcStep p a alen dp sh).cont with _ | pa
    · rfl
    · exact ih _ _ _ _ _ _

theorem altsvcLoop_entries_le (sa : alpnid) (sh : List Char) (sp : Nat) (now : Int) (alen : Nat) :
    ∀ (fuel : Nat) (p a : List Char) (dp e fl : Nat) (l : List altsvc),
    e ≤ (altsvcLoop fuel p a alen dp sa sh sp now e fl l).entries := by
  intro fuel
  induction fuel with
  | zero => intro p a dp e fl l; exact Nat.le_refl e
  | succ n ih =>
    intro p a dp e fl l
    simp only [altsvcLoop]
    rcases hs : (altsvcStep p a alen dp sh).store with _ | sd <;>
      rcases hc : (altsvcStep p a alen dp sh).cont with _ | pa
    · exact Nat.le_refl e
    · exact ih _ _ _ _ _ _
    · exact Nat.le_succ e
    · exact Nat.le_trans (Nat.le_succ e) (ih _ _ _ _ _ _)

theorem altsvcLoop_shift (sa : alpnid) (sh : List Char) (sp : Nat) (now : Int) (alen : Nat) :
    ∀ (fuel : Nat) (p a : List Char) (dp e fl : Nat) (l : List altsvc), e ≠ 0 →
    altsvcLoop fuel p a alen dp sa sh sp now e fl l =
      ⟨.CURLE_OK, l ++ (altsvcLoop fuel p a alen dp sa sh sp now 1 0 []).list, fl,
       (e - 1) + (altsvcLoop fuel p a alen dp sa sh sp now 1 0 []).entries⟩ := by
  intro fuel
  induction fuel with
  | zero =>
    intro p a dp e fl l he
    simp only [altsvcLoop]
    simp
    try omega
  | succ n ih =>
    intro p a dp e fl l he
    simp only [altsvcLoop]
    rcases hs : (altsvcStep p a alen dp sh).store with _ | sd <;>
      rcases hc : (altsvcStep p a alen dp sh).cont with _ | pa <;> dsimp only
    · simp; try omega
    · rw [ih _ _ _ e _ _ he, ih _ _ _ 1 _ _ (by omega)]
      try simp
      try omega
    · have hA : (if e = 0 then (altsvc_flush sa sh sp l, fl + 1) else (l, fl)) = (l, fl) :=
        if_neg he
      have hB : (if (1 : Nat) = 0 then (altsvc_flush sa sh sp ([] : List altsvc), 0 + 1)
          else ([], 0)) = ([], 0) := if_neg (by omega)
      rw [hA, hB]
      rcases hcr : altsvc_createid sh sd.dsthost sa sd.dstalpnid sp (altsvcStep p a alen dp sh).dstport
        with _ | a2 <;> simp [hcr] <;> try omega
    · have hA : (if e = 0 then (altsvc_flush sa sh sp l, fl + 1) else (l, fl)) = (l, fl) :=
        if_neg he
      have hB : (if (1 : Nat) = 0 then (altsvc_flush sa sh sp ([] : List altsvc), 0 + 1)
          else ([], 0)) = ([], 0) := if_neg (by omega)
      rw [hA, hB]
      rcases hcr : altsvc_createid sh sd.dsthost sa sd.dstalpnid sp (altsvcStep p a alen dp sh).dstport
        with _ | a2 <;> dsimp only <;>
        rw [ih _ _ _ (e + 1) _ _ (by omega), ih _ _ _ 2 _ _ (by omega)] <;>
        simp [List.append_assoc] <;> try omega

theorem altsvcLoop_zero (sa : alpnid) (sh : List Char) (sp : Nat) (now : Int) (alen : Nat) :
    ∀ (fuel : Nat) (p a : List Char) (dp fl : Nat) (l : List altsvc),
    ((altsvcLoop fuel p a alen dp sa sh sp now 0 0 []).entries = 0 →
      altsvcLoop fuel p a alen dp sa sh sp now 0 fl l = ⟨.CURLE_OK, l, fl, 0⟩) ∧
    ((altsvcLoop fuel p a alen dp sa sh sp now 0 0 []).entries ≠ 0 →
      altsvcLoop fuel p a alen dp sa sh sp now 0 fl l =
        ⟨.CURLE_OK, altsvc_flush sa sh sp l ++ (altsvcLoop fuel p a alen dp sa sh sp now 0 0 []).list,
         fl + 1, (altsvcLoop fuel p a alen dp sa sh sp now 0 0 []).entries⟩) := by
  intro fuel
  induction fuel with
  | zero =>
    intro p a dp fl l
    exact ⟨fun _ => rfl, fun h => absurd rfl h⟩
  | succ n ih =>
    intro p a dp fl l
    simp only [altsvcLoop]
    rcases hs : (altsvcStep p a alen dp sh).store with _ | sd <;>
      rcases hc : (altsvcStep p a alen dp sh).cont with _ | pa <;> dsimp only
    · exact ⟨fun _ => rfl, fun h => absurd rfl h⟩
    · exact ih _ _ _ _ _
    · constructor
      · intro h
        exact absurd h (by simp)
      · intro _
        rcases hcr : altsvc_createid sh sd.dsthost sa sd.dstalpnid sp
            (altsvcStep p a alen dp sh).dstport with _ | a2 <;>
          simp [hcr, altsvc_flush_nil]
    · have h1 : 1 ≤ (altsvcLoop n pa.1 pa.2 alen (altsvcStep p a alen dp sh).dstport sa sh sp now
          1 0 []).entries := altsvcLoop_entries_le sa sh sp now alen n _ _ _ _ _ _
      constructor
      · intro h
        rw [altsvcLoop_shift sa sh sp now alen n _ _ _ 1 _ _ (by omega)] at h
        simp at h
        omega
      · intro _
        rcases hcr : altsvc_createid sh sd.dsthost sa sd.dstalpnid sp
            (altsvcStep p a alen dp sh).dstport with _ | a2 <;>
          simp only [hcr] <;>
          rw [altsvcLoop_shift sa sh sp now alen n _ _ _ 1 _ _ (by omega)] <;>
          simp [altsvc_flush_nil] <;>
          try (rw [altsvcLoop_shift sa sh sp now alen n _ _ _ 1 1 _ (by omega)]; simp)

/-! ## Claim theorems -/

theorem lookup_characterization (now : Int) (sa : alpnid) (sh : List Char) (sp v : Nat) :
    ∀ l : List altsvc,
    (Curl_altsvc_lookup now sa sh sp v l).1 = l.find? (liveMatch now sa sh sp v) ∧
    (Curl_altsvc_lookup now sa sh sp v l).2 =
      (l.takeWhile (fun a => !liveMatch now sa sh sp v a)).filter (liveB now) ++
        l.dropWhile (fun a => !liveMatch now sa sh sp v a) := by
  intro l
  induction l with
  | nil => exact ⟨rfl, rfl⟩
  | cons a t ih =>
    by_cases hexp : a.expires < now
    · have hl : liveB now a = false := by simp [liveB, hexp]
      have hm : liveMatch now sa sh sp v a = false := by simp [liveMatch, hl]
      constructor
      · simp [Curl_altsvc_lookup, hexp, List.find?_cons, hm, ih.1]
      · simp [Curl_altsvc_lookup, hexp, hm, hl, List.takeWhile_cons, List.dropWhile_cons,
          List.filter_cons, ih.2]
    · have hl : liveB now a = true := by simp [liveB, hexp]
      by_cases hm2 : lookupMatch sa sh sp v a = true
      · have hm : liveMatch now sa sh sp v a = true := by simp [liveMatch, hl, hm2]
        constructor
        · simp [Curl_altsvc_lookup, hexp, hm2, List.find?_cons, hm]
        · simp [Curl_altsvc_lookup, hexp, hm2, hm, List.takeWhile_cons, List.dropWhile_cons]
      · have hm : liveMatch now sa sh sp v a = false := by
          simp [liveMatch, hm2]
        constructor
        · simp [Curl_altsvc_lookup, hexp, hm2, List.find?_cons, hm, ih.1]
        · simp [Curl_altsvc_lookup, hexp, hm2, hm, hl, List.takeWhile_cons, List.dropWhile_cons,
            List.filter_cons, ih.2]

/-- Claim C2: for every header value and source triple the parse returns
success (`CURLE_OK`); malformed input only skips alternatives or stops the
scan early, it never surfaces an error. -/
theorem parse_always_returns_ok (value : List Char) (sa : alpnid) (sh : List Char) (sp : Nat)
    (now : Int) (l : List altsvc) :
    (Curl_altsvc_parse value sa sh sp now l).code = .CURLE_OK := by
  rcases hga : (getalnum value 10).1 with _ | tok
  · simp [Curl_altsvc_parse, hga]
  · by_cases hcl : strcasecompare tok (cs "clear") = true
    · simp [Curl_altsvc_parse, hga, hcl]
    · simp only [Bool.not_eq_true] at hcl
      simp only [Curl_altsvc_parse, hga, hcl, Bool.false_eq_true, if_false]
      exact altsvcLoop_code sa sh sp now _ _ _ _ _ _ _ _

/-- Counterexample to claim C1: the claim says an alternative whose
destination protocol token is unrecognized never counts as the first
valid alternative and never triggers the flush, but the parser resolves
every later alternative under the STALE length of the header value's
first protocol token (`alpnlen` is computed once at altsvc.c:502 and
never updated after the comma branch at line 668 reads a new token). In
`zz=":1", h2x=":2"` the token `h2x` — unrecognized under its own length —
is resolved through its 2-byte prefix `h2`, triggers the flush of the
matching cached entry and is stored. -/
theorem parse_stale_alpnlen_flush_cex :
    Curl_alpn2alpnid (cs "h2x") (cs "h2x").length = .ALPN_none ∧
    (Curl_altsvc_parse (cs "zz=\":1\", h2x=\":2\"") .ALPN_h1 (cs "example.com") 443 50
        [sampleEntry]).flushes = 1 ∧
    (Curl_altsvc_parse (cs "zz=\":1\", h2x=\":2\"") .ALPN_h1 (cs "example.com") 443 50
        [sampleEntry]).list.map (fun a => (a.dst.alpnid, a.dst.port)) = [(.ALPN_h2, 2)] := by
  decide

/-- Claim C1 (amended): during parse of one (non-"clear") header value,
the origin is flushed exactly once, just before the first valid
alternative is stored (the final entry list is the flushed original
followed by the new entries); with no valid alternative there is no
flush and no change. An alternative is valid when its syntax is valid
and its destination protocol token resolves to a known id UNDER THE
LENGTH OF THE VALUE'S FIRST PROTOCOL TOKEN — the parser computes that
length once and reuses it for every later alternative — and the
`entries` counter counts exactly these alternatives; one that does not
resolve under that stale length does not count and does not trigger the
flush. -/
theorem parse_flush_once_before_first_valid (value : List Char) (sa : alpnid) (sh : List Char)
    (sp : Nat) (now : Int) (l : List altsvc) (h : isClearHeader value = false) :
    ((Curl_altsvc_parse value sa sh sp now l).entries = 0 →
      (Curl_altsvc_parse value sa sh sp now l).flushes = 0 ∧
      (Curl_altsvc_parse value sa sh sp now l).list = l) ∧
    ((Curl_altsvc_parse value sa sh sp now l).entries ≠ 0 →
      (Curl_altsvc_parse value sa sh sp now l).flushes = 1 ∧
      (Curl_altsvc_parse value sa sh sp now l).list =
        altsvc_flush sa sh sp l ++ (Curl_altsvc_parse value sa sh sp now []).list) := by
  unfold isClearHeader at h
  rcases hga : (getalnum value 10).1 with _ | tok
  · rw [hga] at h
    constructor
    · intro _
      constructor <;> simp [Curl_altsvc_parse, hga]
    · intro hne
      exact absurd (by simp [Curl_altsvc_parse, hga]) hne
  · rw [hga] at h
    have hcl : strcasecompare tok (cs "clear") = false := by
      dsimp only at h
      exact h
    have hu : ∀ l2 : List altsvc, Curl_altsvc_parse value sa sh sp now l2 =
        altsvcLoop ((getalnum value 10).2.length + 1) (getalnum value 10).2 tok tok.length sp
          sa sh sp now 0 0 l2 := by
      intro l2
      simp [Curl_altsvc_parse, hga, hcl]
    have hz := altsvcLoop_zero sa sh sp now tok.length ((getalnum value 10).2.length + 1)
      (getalnum value 10).2 tok sp
    by_cases he : (altsvcLoop ((getalnum value 10).2.length + 1) (getalnum value 10).2 tok
        tok.length sp sa sh sp now 0 0 []).entries = 0
    · have h0 := (hz 0 l).1 he
      rw [hu l, h0]
      constructor
      · intro _
        exact ⟨rfl, rfl⟩
      · intro hne
        exact absurd rfl hne
    · have h0 := (hz 0 l).2 he
      have h0e := (hz 0 ([] : List altsvc)).2 he
      rw [hu l, hu ([] : List altsvc), h0, h0e]
      constructor
      · intro h2
        exact absurd h2 he
      · intro _
        refine ⟨rfl, ?_⟩
        rw [altsvc_flush_nil]
        try simp

/-- Concrete instantiation of the C1 theorem: one valid alternative on a
cache holding one matching entry flushes exactly once, and the result is
the flushed original followed by the freshly stored entries. -/
theorem parse_flush_once_before_first_valid_witness :
    (Curl_altsvc_parse (cs "h2=\":443\"") .ALPN_h1 (cs "example.com") 443 50
        [sampleEntry]).flushes = 1 ∧
    (Curl_altsvc_parse (cs "h2=\":443\"") .ALPN_h1 (cs "example.com") 443 50
        [sampleEntry]).list =
      altsvc_flush .ALPN_h1 (cs "example.com") 443 [sampleEntry] ++
        (Curl_altsvc_parse (cs "h2=\":443\"") .ALPN_h1 (cs "example.com") 443 50 []).list :=
  (parse_flush_once_before_first_valid (cs "h2=\":443\"") .ALPN_h1 (cs "example.com") 443 50
    [sampleEntry] (by decide)).2 (by decide)

/-- Claim C9: flush removes exactly the entries whose source origin
matches, keeping everything else in order; the predicate never looks at
the expiry, so unexpired matching entries are removed and expired
non-matching entries are kept. -/
theorem flush_removes_exactly_origin_matches (sa : alpnid) (sh : List Char) (sp : Nat) :
    ∀ l : List altsvc, altsvc_flush sa sh sp l = l.filter (fun a => !flushMatch sa sh sp a) := by
  intro l
  induction l with
  | nil => rfl
  | cons a t ih =>
    by_cases hm : flushMatch sa sh sp a = true <;>
      simp [altsvc_flush, hm, List.filter_cons, ih]

/-- Claim C5: lookup returns the first entry (in insertion order) that is
both live and matching, leaves everything from that entry on untouched,
drops exactly the expired entries it passed over (all of them on a miss),
and never returns an expired or non-matching entry. -/
theorem lookup_first_live_match_with_eviction (now : Int) (sa : alpnid) (sh : List Char)
    (sp v : Nat) (l : List altsvc) :
    (Curl_altsvc_lookup now sa sh sp v l).1 = l.find? (liveMatch now sa sh sp v) ∧
    (Curl_altsvc_lookup now sa sh sp v l).2 =
      (l.takeWhile (fun a => !liveMatch now sa sh sp v a)).filter (liveB now) ++
        l.dropWhile (fun a => !liveMatch now sa sh sp v a) ∧
    (∀ e, (Curl_altsvc_lookup now sa sh sp v l).1 = some e →
      ¬ e.expires < now ∧ lookupMatch sa sh sp v e = true) := by
  refine ⟨(lookup_characterization now sa sh sp v l).1,
    (lookup_characterization now sa sh sp v l).2, ?_⟩
  intro e he
  rw [(lookup_characterization now sa sh sp v l).1] at he
  have hp := List.find?_some he
  simp only [liveMatch, liveB, Bool.and_eq_true, Bool.not_eq_eq_eq_not, Bool.not_true,
    decide_eq_false_iff_not] at hp
  exact hp

/-- Concrete instantiation of the C5 theorem: the returned entry of a
sample lookup is live and matching. -/
theorem lookup_first_live_match_with_eviction_witness :
    ¬ sampleEntry.expires < 9 ∧ lookupMatch .ALPN_h1 (cs "example.com") 443 63 sampleEntry
      = true :=
  (lookup_first_live_match_with_eviction 9 .ALPN_h1 (cs "example.com") 443 63
    [sampleEntry]).2.2 sampleEntry (by decide)

/-- Claim C10: an entry whose expiry equals the current time is live at
the lookup boundary: it is not evicted (it stays at the head of the
surviving list) and, when it matches the query, it is returned. -/
theorem lookup_boundary_expiry_live (now : Int) (sa : alpnid) (sh : List Char) (sp v : Nat)
    (e : altsvc) (l : List altsvc) (hexp : e.expires = now) :
    (Curl_altsvc_lookup now sa sh sp v (e :: l)).2.head? = some e ∧
    (lookupMatch sa sh sp v e = true → (Curl_altsvc_lookup now sa sh sp v (e :: l)).1 = some e)
    := by
  have hnl : ¬ e.expires < now := by rw [hexp]; exact lt_irrefl now
  by_cases hm : lookupMatch sa sh sp v e = true <;>
    constructor <;> simp [Curl_altsvc_lookup, hnl, hm]

/-- Concrete instantiation of the C10 theorem at `expires = now = 123`. -/
theorem lookup_boundary_expiry_live_witness :
    (Curl_altsvc_lookup 123 .ALPN_h1 (cs "example.com") 443 63 [entryAt 123]).2.head? =
      some (entryAt 123) ∧
    (lookupMatch .ALPN_h1 (cs "example.com") 443 63 (entryAt 123) = true →
      (Curl_altsvc_lookup 123 .ALPN_h1 (cs "example.com") 443 63 [entryAt 123]).1 =
        some (entryAt 123)) :=
  lookup_boundary_expiry_live 123 .ALPN_h1 (cs "example.com") 443 63 (entryAt 123) []
    (by decide)

/-- Counterexample to claim C3: the trailing-dot tolerance goes the other
way round. A stored source host `example.com.` does NOT match the query
host `example.com`, while a stored `example.com` DOES match the query
host `example.com.` — `hostcompare` ignores a trailing dot on its first
argument, which at both call sites is the caller's query host. -/
theorem host_trailing_dot_claim_cex :
    (Curl_altsvc_lookup 9 .ALPN_h1 (cs "example.com") 443 63 [dotEntry]).1 = none ∧
    (Curl_altsvc_lookup 9 .ALPN_h1 (cs "example.com.") 443 63 [sampleEntry]).1 =
      some sampleEntry := by
  decide

/-- Claim C3 (amended): hostname matching is tolerant of exactly one
trailing dot on the QUERY host only: an entry whose stored source host is
`example.com` matches a lookup query host `example.com.`, while an entry
whose stored source host is `example.com.` does not match a lookup query
host `example.com`. -/
theorem host_trailing_dot_amended (now exp : Int) (h : ¬ exp < now) :
    (Curl_altsvc_lookup now .ALPN_h1 (cs "example.com.") 443 63 [entryAt exp]).1 =
      some (entryAt exp) ∧
    (Curl_altsvc_lookup now .ALPN_h1 (cs "example.com") 443 63 [dotSrcAt exp]).1 = none := by
  have h1 : ¬ (entryAt exp).expires < now := h
  have h2 : ¬ (dotSrcAt exp).expires < now := h
  have hm : lookupMatch .ALPN_h1 (cs "example.com.") 443 63 (entryAt exp) = true := by
    simp only [lookupMatch, entryAt]
    decide
  have hnm : lookupMatch .ALPN_h1 (cs "example.com") 443 63 (dotSrcAt exp) = false := by
    simp only [lookupMatch, dotSrcAt]
    decide
  constructor
  · simp [Curl_altsvc_lookup, h1, hm]
  · simp [Curl_altsvc_lookup, h2, hnm]

/-- Concrete instantiation of the amended C3 theorem at `now = exp = 0`. -/
theorem host_trailing_dot_amended_witness :
    (Curl_altsvc_lookup 0 .ALPN_h1 (cs "example.com.") 443 63 [entryAt 0]).1 =
      some (entryAt 0) ∧
    (Curl_altsvc_lookup 0 .ALPN_h1 (cs "example.com") 443 63 [dotSrcAt 0]).1 = none :=
  host_trailing_dot_amended 0 0 (by decide)

/-- Claim C4 (code bug): in `h3=":8443", h2="alt.example"` with source
port 443, the second alternative has no `:port`, yet its stored
destination port is 8443 — the `dstport` local persists across
alternatives instead of being reset to the source port. -/
theorem parse_dstport_carryover_bug :
    (Curl_altsvc_parse (cs "h3=\":8443\", h2=\"alt.example\"") .ALPN_h1 (cs "example.com")
        443 1000 []).list.map (fun a => (a.dst.host, a.dst.port)) =
      [(cs "example.com", 8443), (cs "alt.example", 8443)] := by
  decide

/-- Counterexample to claim C6: a `ma` of 2^63 (which passes the
`num < ULONG_MAX` check) converts to a negative `time_t`, so the stored
expiry is a large negative number rather than the claimed
`min(now + ma, TIME_T_MAX) = TIME_T_MAX`. -/
theorem expiry_overflow_wrap_cex :
    (Curl_altsvc_parse (cs "h2=\":443\"; ma=9223372036854775808") .ALPN_h2 (cs "example.com")
        443 1000000 []).list.map (fun a => a.expires) =
      [1000000 - 9223372036854775808] ∧
    (1000000 - 9223372036854775808 : Int) < 0 ∧
    min ((1000000 : Int) + 9223372036854775808) TIME_T_MAX = TIME_T_MAX := by
  exact ⟨by decide, by decide, by decide⟩

/-- Claim C6 (amended): the expiry equals `min(now + maxage, TIME_T_MAX)`
where `maxage` is the `ma` value AFTER the unsigned-to-signed `time_t`
conversion: values below 2^63 convert unchanged (so the saturating cap
behaves as claimed), while values in [2^63, 2^64-2] wrap to a negative
`maxage` and hence a small or negative expiry. A concrete in-range `ma`
close to 2^63 is capped at `TIME_T_MAX` by the actual parse. -/
theorem expiry_saturation_amended :
    (∀ now maxage : Int, storeExpiry now maxage = min (maxage + now) TIME_T_MAX) ∧
    (∀ n : Nat, (n : Int) < 2 ^ 63 → castTimeT n = (n : Int)) ∧
    (∀ n : Nat, 2 ^ 63 ≤ (n : Int) → (n : Int) < 2 ^ 64 → castTimeT n = (n : Int) - 2 ^ 64) ∧
    (Curl_altsvc_parse (cs "h2=\":443\"; ma=9223372036854775806") .ALPN_h2 (cs "example.com")
        443 1000 []).list.map (fun a => a.expires) = [TIME_T_MAX] := by
  refine ⟨?_, ?_, ?_, by decide⟩
  · intro now maxage
    have hp : (2 : Int) ^ 63 = 9223372036854775808 := by norm_num
    simp only [storeExpiry, TIME_T_MAX, min_def, hp]
    split <;> split <;> omega
  · intro n hn
    have hn' : n < 2 ^ 63 := by exact_mod_cast hn
    have h1 : n % 2 ^ 64 = n := Nat.mod_eq_of_lt (lt_of_lt_of_le hn' (by norm_num))
    simp only [castTimeT, h1]
    rw [if_pos hn']
  · intro n hge hlt
    have hge' : 2 ^ 63 ≤ n := by exact_mod_cast hge
    have hlt' : n < 2 ^ 64 := by exact_mod_cast hlt
    have h1 : n % 2 ^ 64 = n := Nat.mod_eq_of_lt hlt'
    simp only [castTimeT, h1]
    rw [if_neg (by omega)]

/-- Concrete instantiation of the amended C6 theorem. -/
theorem expiry_saturation_amended_witness :
    storeExpiry 5 10 = min (10 + 5) TIME_T_MAX ∧ castTimeT 7 = 7 ∧
    castTimeT 9223372036854775808 = (9223372036854775808 : Int) - 2 ^ 64 :=
  ⟨expiry_saturation_amended.1 5 10, expiry_saturation_amended.2.1 7 (by decide),
   expiry_saturation_amended.2.2.1 9223372036854775808 (by decide) (by decide)⟩

/-- Counterexample to claim C7: a line that satisfies every constraint
except that its priority field is `2` (a perfectly good bare non-negative
integer) is discarded: `altsvc_add` passes 0 as the maximum for the
priority number, so only `0` is accepted. -/
theorem load_priority_two_discarded_cex :
    altsvc_add (fun _ => 7) []
      (cs "h2 example.com 443 h3 shiny.example.com 8443 \"20191231 10:00:00\" 1 2\n") =
      (.CURLE_OK, []) := by
  decide

/-- Claim C7 (amended): a line whose fields satisfy the constraints with
priority exactly 0 produces a cache entry; a line violating any
constraint is silently discarded (never an error, never more than one
entry appended, prior entries untouched) and loading continues with the
next line (shown with a comment line, a discarded `persist = 2` line and
a stored good line). -/
theorem load_line_tokenization_amended :
    (∀ (gd : List Char → Int) (asi : List altsvc) (line : List Char),
      (altsvc_add gd asi line).1 = .CURLE_OK ∧
      ((altsvc_add gd asi line).2 = asi ∨ ∃ e, (altsvc_add gd asi line).2 = asi ++ [e])) ∧
    (altsvc_add (fun _ => 7) []
        (cs "h2 example.com 443 h3 shiny.example.com 8443 \"20191231 10:00:00\" 1 0\n")).2 =
      [⟨⟨.ALPN_h2, cs "example.com", 443⟩, ⟨.ALPN_h3, cs "shiny.example.com", 8443⟩, 7, true,
        0⟩] ∧
    altsvcLoadLines (fun _ => 7) []
      [cs "# comment\n",
       cs "h2 example.com 443 h3 shiny.example.com 8443 \"20191231 10:00:00\" 2 0\n",
       cs "h2 example.com 443 h3 shiny.example.com 8443 \"20191231 10:00:00\" 1 0\n"] =
      [⟨⟨.ALPN_h2, cs "example.com", 443⟩, ⟨.ALPN_h3, cs "shiny.example.com", 8443⟩, 7, true,
        0⟩] := by
  refine ⟨?_, by decide, by decide⟩
  intro gd asi line
  rcases hlf : altsvcLineFields line with _ | f
  · simp [altsvc_add, hlf]
  · rcases hcr : altsvc_create f.srchost f.dsthost f.srcalpn f.dstalpn f.srcport f.dstport
      with _ | a
    · simp [altsvc_add, hlf, hcr]
    · exact ⟨by simp [altsvc_add, hlf, hcr],
        Or.inr ⟨{ a with expires := gd f.date, persist := f.persist != 0, prio := 0 },
          by simp [altsvc_add, hlf, hcr]⟩⟩

/-- Counterexample to claim C8: stored source hosts CAN end in a trailing
dot — `a..` keeps one dot after the single strip, `[a.]` keeps its dot
because the bracket branch strips nothing else, and the `a..` form is
reachable through the load path. -/
theorem createid_trailing_dot_cex :
    (altsvc_createid (cs "a..") (cs "x") .ALPN_h1 .ALPN_h2 443 443).map
        (fun a => a.src.host) = some (cs "a.") ∧
    (altsvc_createid (cs "[a.]") (cs "x") .ALPN_h1 .ALPN_h2 443 443).map
        (fun a => a.src.host) = some (cs "a.") ∧
    (altsvcLoadLines (fun _ => 7) []
        [cs "h1 a.. 80 h2 x 80 \"20300101 00:00:00\" 0 0\n"]).map
        (fun a => a.src.host.getLast?) = [some '.'] := by
  decide


/-- Claim C8 (amended): every entry created by `altsvc_createid` has a
non-empty source host and a non-empty destination host; for a
NON-bracketed source host, exactly one trailing dot is stripped at
creation (so multiple trailing dots keep the remainder, and a bracketed
source keeps even a trailing dot of its content), and creation fails when
stripping would leave the host empty; bracketed forms are stored
bracket-free for both hosts; a trailing dot on the destination host is
never stripped. -/
theorem createid_host_invariants_amended :
    (∀ (sh dh : List Char) (sa da : alpnid) (sp dp : Nat) (a : altsvc),
      altsvc_createid sh dh sa da sp dp = some a →
      a.src.host ≠ [] ∧ a.dst.host ≠ [] ∧
      (¬ (2 < sh.length ∧ sh.head? = some '[') → sh.getLast? = some '.' →
        a.src.host = sh.dropLast) ∧
      (¬ (2 < dh.length ∧ dh.head? = some '[') → a.dst.host = dh) ∧
      ((2 < sh.length ∧ sh.head? = some '[') → a.src.host = (sh.drop 1).take (sh.length - 2)) ∧
      ((2 < dh.length ∧ dh.head? = some '[') →
        a.dst.host = (dh.drop 1).take (dh.length - 2))) ∧
    (∀ (dh : List Char) (sa da : alpnid) (sp dp : Nat),
      altsvc_createid (cs ".") dh sa da sp dp = none) := by
  constructor
  · intro sh dh sa da sp dp a h
    simp only [altsvc_createid] at h
    by_cases h0 : sh.length = 0 ∨ dh.length = 0
    · rw [if_pos h0] at h
      exact absurd h (by simp)
    · rw [if_neg h0] at h
      push_neg at h0
      have hd1 : (if 2 < dh.length ∧ dh.head? = some '[' then (dh.drop 1).take (dh.length - 2)
          else dh) ≠ [] := by
        by_cases hdb : 2 < dh.length ∧ dh.head? = some '['
        · rw [if_pos hdb]
          intro hnil
          have hlen : ((dh.drop 1).take (dh.length - 2)).length = 0 := by rw [hnil]; rfl
          simp only [List.length_take, List.length_drop] at hlen
          omega
        · rw [if_neg hdb]
          intro hnil
          exact h0.2 (by rw [hnil]; rfl)
      have hd2 : ¬ (2 < dh.length ∧ dh.head? = some '[') →
          (if 2 < dh.length ∧ dh.head? = some '[' then (dh.drop 1).take (dh.length - 2)
            else dh) = dh := fun hn => if_neg hn
      have hd3 : (2 < dh.length ∧ dh.head? = some '[') →
          (if 2 < dh.length ∧ dh.head? = some '[' then (dh.drop 1).take (dh.length - 2)
            else dh) = (dh.drop 1).take (dh.length - 2) := fun hy => if_pos hy
      by_cases hb : 2 < sh.length ∧ sh.head? = some '['
      · rw [if_pos hb] at h
        dsimp only at h
        injection h with h2
        subst h2
        dsimp only
        refine ⟨?_, hd1, ?_, hd2, fun _ => rfl, hd3⟩
        · intro hnil
          have hlen := congrArg List.length hnil
          simp only [List.length_take, List.length_drop, List.length_nil] at hlen
          omega
        · intro hnb _
          exact absurd hb hnb
      · rw [if_neg hb] at h
        by_cases hdot : sh.getLast? = some '.'
        · rw [if_pos hdot] at h
          by_cases hempty : sh.length - 1 = 0
          · rw [if_pos hempty] at h
            exact absurd h (by simp)
          · rw [if_neg hempty] at h
            dsimp only at h
            injection h with h2
            subst h2
            dsimp only
            refine ⟨?_, hd1, ?_, hd2, ?_, hd3⟩
            · intro hnil
              have hlen := congrArg List.length hnil
              simp only [List.length_take, List.length_nil] at hlen
              omega
            · intro _ _
              rw [List.dropLast_eq_take]
            · intro hb2
              exact absurd hb2 hb
        · rw [if_neg hdot] at h
          dsimp only at h
          injection h with h2
          subst h2
          dsimp only
          refine ⟨?_, hd1, ?_, hd2, ?_, hd3⟩
          · intro hnil
            exact h0.1 (by rw [hnil]; rfl)
          · intro _ hd
            exact absurd hd hdot
          · intro hb2
            exact absurd hb2 hb
  · intro dh sa da sp dp
    have hcs : cs "." = ['.'] := rfl
    rw [hcs]
    by_cases hd : dh.length = 0
    · simp [altsvc_createid, hd]
    · simp [altsvc_createid, hd]

/-- Concrete instantiation of the amended C8 theorem: source `host.` with
bracketed destination `[::1]` creates `strippedEntry`, which satisfies
the invariants. -/
theorem createid_host_invariants_amended_witness :
    strippedEntry.src.host ≠ [] ∧ strippedEntry.dst.host ≠ [] ∧
    (¬ (2 < (cs "host.").length ∧ (cs "host.").head? = some '[') →
      (cs "host.").getLast? = some '.' → strippedEntry.src.host = (cs "host.").dropLast) ∧
    (¬ (2 < (cs "[::1]").length ∧ (cs "[::1]").head? = some '[') →
      strippedEntry.dst.host = cs "[::1]") ∧
    ((2 < (cs "host.").length ∧ (cs "host.").head? = some '[') →
      strippedEntry.src.host = ((cs "host.").drop 1).take ((cs "host.").length - 2)) ∧
    ((2 < (cs "[::1]").length ∧ (cs "[::1]").head? = some '[') →
      strippedEntry.dst.host = ((cs "[::1]").drop 1).take ((cs "[::1]").length - 2)) :=
  createid_host_invariants_amended.1 (cs "host.") (cs "[::1]") .ALPN_h1 .ALPN_h2 80 443
    strippedEntry (by decide)

end Altsvc
